import Mathlib

/-!
Shallow embedding of the FeedGen row-optimization pipeline (src/app.ts):
response parsing, row reconciliation, metric scoring, row-driver error
handling and the approved-row export, together with theorems checking the
natural-language specification against this embedding.

JavaScript objects are modelled as insertion-ordered association lists with
unique keys (`Obj`), JavaScript string truthiness as non-emptiness, and the
`undefined` value as `Option.none`.
-/

set_option autoImplicit false
set_option maxRecDepth 8192
set_option maxHeartbeats 1000000

namespace FeedGen

/-! ### JavaScript string primitives -/

/-- Character class of the JavaScript regex token `\w`, that is `[A-Za-z0-9_]`. -/
def isWordChar (c : Char) : Bool := c.isAlphanum || c == '_'

/-- Leading-whitespace removal on a character list. -/
def trimLeftChars (l : List Char) : List Char := l.dropWhile Char.isWhitespace

/-- Trailing-whitespace removal on a character list. -/
def trimRightChars (l : List Char) : List Char := (l.reverse.dropWhile Char.isWhitespace).reverse

/-- Model of `String.prototype.trim`: drop leading and trailing whitespace. -/
def jsTrim (s : String) : String := ⟨trimRightChars (trimLeftChars s.data)⟩

/-- Scanner for the split on a non-empty plain-string separator: at each
position, either the separator is a prefix (cut here) or the head character
joins the current piece. The fuel argument only bounds the recursion; it is
never exhausted when it starts at one more than the input length and the
separator is non-empty. -/
def splitOnCharsAux (sep : List Char) : Nat → List Char → List Char → List (List Char)
  | 0, _, acc => [acc.reverse]
  | _ + 1, [], acc => [acc.reverse]
  | fuel + 1, c :: rest, acc =>
    if sep.isPrefixOf (c :: rest) then
      acc.reverse :: splitOnCharsAux sep fuel ((c :: rest).drop sep.length) []
    else
      splitOnCharsAux sep fuel rest (c :: acc)

/-- Model of `String.prototype.split` with a non-empty plain-string separator. -/
def jsSplit (s sep : String) : List String :=
  (splitOnCharsAux sep.data (s.data.length + 1) s.data []).map String.mk

/-- Model of `Array.prototype.join` on an array of strings. -/
def joinSep (sep : String) : List String → String
  | [] => ""
  | x :: rest => rest.foldl (fun acc y => acc ++ (sep ++ y)) x

/-- Model of `String.prototype.replace` with a plain-string pattern and empty
replacement: remove the first occurrence of `pat` from `s`. -/
def replaceFirst (s pat : String) : String :=
  match jsSplit s pat with
  | [] => s
  | [_] => s
  | a :: b :: rest => a ++ joinSep pat (b :: rest)

/-- Truthiness of a possibly-undefined JavaScript string: `undefined` and the
empty string are falsy, every other string is truthy. -/
def jsTruthy : Option String → Bool
  | none => false
  | some s => s != ""

/-- Model of `x || y` on possibly-undefined JavaScript strings. -/
def jsOr (a b : Option String) : Option String := if jsTruthy a then a else b

/-- Model of `Array.prototype.join` on an array of possibly-undefined strings:
`undefined` entries render as the empty string. -/
def jsJoin (sep : String) (xs : List (Option String)) : String :=
  joinSep sep (xs.map (fun x => x.getD ""))

/-- Model of `[...new Set(xs)]`: deduplicate keeping first-seen order. -/
def dedupFirst (xs : List String) : List String :=
  xs.foldl (fun acc x => if acc.contains x then acc else acc ++ [x]) []

/-! ### JavaScript objects as insertion-ordered association lists -/

/-- A JavaScript object with string keys: unique keys in insertion order. -/
abbrev Obj (α : Type) : Type := List (String × α)

/-- Property read, `m[k]`: the value at the first matching key, else `undefined`. -/
def objGet {α : Type} : Obj α → String → Option α
  | [], _ => none
  | p :: m, k => if p.1 = k then some p.2 else objGet m k

/-- Property write, `m[k] = v`: replace the value at an existing key in place,
otherwise append the new key at the end (JavaScript insertion order). -/
def objSet {α : Type} : Obj α → String → α → Obj α
  | [], k, v => [(k, v)]
  | p :: m, k, v => if p.1 = k then (k, v) :: m else p :: objSet m k v

/-- Model of `Object.keys`. -/
def objKeys {α : Type} (m : Obj α) : List String := m.map Prod.fst

/-! ### Obj lemmas -/

theorem objGet_objSet_self {α : Type} (m : Obj α) (k : String) (v : α) :
    objGet (objSet m k v) k = some v := by
  induction m with
  | nil => simp [objSet, objGet]
  | cons p m ih =>
    by_cases h : p.1 = k
    · subst h
      simp [objSet, objGet]
    · simp [objSet, objGet, h, ih]

theorem objGet_objSet_ne {α : Type} (m : Obj α) (k k' : String) (v : α) (h : k' ≠ k) :
    objGet (objSet m k v) k' = objGet m k' := by
  have hk : k ≠ k' := fun hh => h hh.symm
  induction m with
  | nil => simp [objSet, objGet, hk]
  | cons p m ih =>
    by_cases hp : p.1 = k
    · subst hp
      simp [objSet, objGet, hk, h]
    · by_cases hp' : p.1 = k'
      · subst hp'
        simp [objSet, objGet, hp, h]
      · simp [objSet, objGet, hp, hp', ih]

theorem mem_objKeys_objSet {α : Type} (m : Obj α) (k k' : String) (v : α) :
    k' ∈ objKeys (objSet m k v) ↔ k' = k ∨ k' ∈ objKeys m := by
  induction m with
  | nil => simp [objSet, objKeys]
  | cons p m ih =>
    by_cases hp : p.1 = k
    · subst hp
      simp only [objSet, if_pos rfl, ite_true, objKeys, List.map_cons, List.mem_cons]
      tauto
    · rw [show objSet (p :: m) k v = p :: objSet m k v by simp [objSet, hp]]
      simp only [objKeys, List.map_cons, List.mem_cons]
      simp only [objKeys] at ih
      rw [ih]
      tauto

theorem objGet_eq_none_of_not_mem {α : Type} (m : Obj α) (k : String)
    (h : k ∉ objKeys m) : objGet m k = none := by
  induction m with
  | nil => simp [objGet]
  | cons p m ih =>
    simp only [objKeys, List.map_cons, List.mem_cons, not_or] at h
    have h1 : p.1 ≠ k := fun hh => h.1 hh.symm
    have h2 : k ∉ objKeys m := h.2
    simp [objGet, h1, ih h2]

theorem mem_dedupFirst (xs : List String) (x : String) :
    x ∈ dedupFirst xs ↔ x ∈ xs := by
  have key : ∀ (l acc : List String), x ∈ l.foldl
      (fun acc x => if acc.contains x then acc else acc ++ [x]) acc ↔ x ∈ acc ∨ x ∈ l := by
    intro l
    induction l with
    | nil => simp
    | cons y l ih =>
      intro acc
      by_cases hy : acc.contains y
      · rw [List.foldl_cons, if_pos hy, ih]
        have : y ∈ acc := by simpa using hy
        constructor
        · rintro (h | h)
          · exact Or.inl h
          · exact Or.inr (List.mem_cons_of_mem _ h)
        · rintro (h | h)
          · exact Or.inl h
          · rcases List.mem_cons.mp h with h | h
            · exact Or.inl (h ▸ this)
            · exact Or.inr h
      · rw [List.foldl_cons, if_neg hy, ih]
        simp only [List.mem_append, List.mem_singleton, List.mem_cons]
        tauto
  rw [dedupFirst, key]
  simp

/-! ### The word-matching regex

The source tokenizes strings with the global regex whose two alternatives are,
first, a maximal run of word or space characters that ends in a word character
immediately followed by a double quote (the interior of a quoted phrase), and
second, a maximal run of word characters. Because a double quote is neither a
word nor a space character, the greedy first alternative can only succeed by
consuming the entire word-or-space run, which gives the deterministic scanner
below. -/

/-- Length of the maximal word-or-space run at the front of the input. -/
def wordSpaceRun (cs : List Char) : Nat :=
  (cs.takeWhile (fun c => isWordChar c || c.isWhitespace)).length

/-- Length of the maximal word run at the front of the input. -/
def wordRun (cs : List Char) : Nat := (cs.takeWhile isWordChar).length

/-- One left-to-right global scan of the word-matching regex, with fuel. -/
def wordMatchAux : Nat → List Char → List String
  | 0, _ => []
  | _, [] => []
  | fuel + 1, c :: rest =>
    let cs := c :: rest
    let r := wordSpaceRun cs
    if 0 < r && isWordChar ((cs.take r).getLastD ' ') && ((cs.getD r ' ') == '"') then
      String.mk (cs.take r) :: wordMatchAux fuel (cs.drop r)
    else
      let w := wordRun cs
      if 0 < w then String.mk (cs.take w) :: wordMatchAux fuel (cs.drop w)
      else wordMatchAux fuel rest

/-- Model of `s.match(WORD_MATCH_REGEX)`; a null result is the empty list. -/
def wordMatch (s : String) : List String := wordMatchAux s.data.length s.data

/-! ### Response parsing -/

def ORIGINAL_TITLE_TEMPLATE_PROMPT_PART : String :=
  "product attribute keys in original title:"
def CATEGORY_PROMPT_PART : String := "product category:"
def TEMPLATE_PROMPT_PART : String := "product attribute keys:"
def ATTRIBUTES_PROMPT_PART : String := "product attribute values:"
def SEPARATOR : String := "|"

/-- Segment parsing as written in `optimizeRow`: remove the first occurrence of
the prompt part, split on the separator, keep the truthy (non-empty) pieces,
then trim each surviving piece. -/
def parseSegment (promptPart line : String) : List String :=
  ((jsSplit (replaceFirst line promptPart) SEPARATOR).filter (fun x => x != "")).map jsTrim

/-- Display string of a template: each key trimmed, angle-bracketed, space-joined. -/
def templateString (attrs : List String) : String :=
  joinSep " " (attrs.map (fun x => "<" ++ jsTrim x ++ ">"))

/-- The newline split of the raw title-generation model response. -/
def responseLines (titleRes : String) : List String := jsSplit titleRes "\n"

/-- Attribute keys parsed from the original-title template segment (line 0). -/
def origAttrsOf (titleRes : String) : List String :=
  parseSegment ORIGINAL_TITLE_TEMPLATE_PROMPT_PART (((responseLines titleRes).get? 0).getD "")

/-- Attribute keys parsed from the generated-template segment (line 2). -/
def genKeysOf (titleRes : String) : List String :=
  parseSegment TEMPLATE_PROMPT_PART (((responseLines titleRes).get? 2).getD "")

/-- Attribute values parsed from the generated-values segment (line 3). -/
def genValsOf (titleRes : String) : List String :=
  parseSegment ATTRIBUTES_PROMPT_PART (((responseLines titleRes).get? 3).getD "")

/-! ### Row context and reconciliation -/

/-- Model of `Object.fromEntries(data.map((item, index) => [headers[index], item]))`:
pairs are inserted in order, a later duplicate key overwrites in place, and an
out-of-range header index yields the JavaScript key string of `undefined`. -/
def buildDataObj (headers data : List String) : Obj String :=
  data.enum.foldl (fun m p => objSet m ((headers.get? p.1).getD "undefined") p.2) []

/-- The gap test of `optimizeRow`: the row context has no truthy value for the
key, and either the key is absent from the original-title template keys or it
is present among the row context keys. -/
def gapCond (dataObj : Obj String) (origAttributes : List String) (k : String) : Bool :=
  !(jsTruthy (objGet dataObj k)) &&
    (!(origAttributes.contains k) || (objKeys dataObj).contains k)

/-- The per-key loop of `optimizeRow` over the generated attribute keys, with
the running index `i` into the generated attribute values: record a gap-map
entry when the gap test holds, and push the title feature, preferring the
truthy row-context value over the generated value. -/
def reconcileAux (dataObj : Obj String) (origAttributes vals : List String) :
    Nat → List String → Obj (Option String) → Obj (Option String) × List (Option String)
  | _, [], gap => (gap, [])
  | i, k :: rest, gap =>
    let gap1 := if gapCond dataObj origAttributes k then objSet gap k (vals.get? i) else gap
    let res := reconcileAux dataObj origAttributes vals (i + 1) rest gap1
    (res.1, jsOr (objGet dataObj k) (vals.get? i) :: res.2)

/-- The title-feature list produced for a response, as built by `optimizeRow`. -/
def titleFeaturesOf (headers data : List String) (titleRes : String) : List (Option String) :=
  (reconcileAux (buildDataObj headers data) (origAttrsOf titleRes) (genValsOf titleRes)
    0 (genKeysOf titleRes) []).2

/-- The gap-and-invented attribute map produced for a response, as built by
`optimizeRow`. -/
def gapMapOf (headers data : List String) (titleRes : String) : Obj (Option String) :=
  (reconcileAux (buildDataObj headers data) (origAttrsOf titleRes) (genValsOf titleRes)
    0 (genKeysOf titleRes) []).1

/-! ### Metrics -/

/-- Modelled from the spec: `Util.getSetDifference` (helpers/util.ts is not under
src); it returns the members of the first set that are not in the second. -/
def getSetDifference (a b : List String) : List String :=
  a.filter (fun x => !(b.contains x))

/-- Lowercased word set of all row-context values, in value-then-word order. -/
def collectInputWords (m : Obj String) : List String :=
  dedupFirst (m.foldl (fun acc p => acc ++ (wordMatch p.2).map String.toLower) [])

/-- New words of the generated title: title words whose lowercase form is not
among the input words, deduplicated in first-seen order. -/
def newWordsOf (genTitle : String) (inputWords : List String) : List String :=
  dedupFirst ((wordMatch genTitle).filter (fun w => !(inputWords.contains w.toLower)))

/-- Gap-map keys that exist among the original-input keys. -/
def gapPresentOf (gap : Obj (Option String)) (originalInput : Obj String) : List String :=
  (objKeys gap).filter (fun k => (objKeys originalInput).contains k)

/-- Gap-map keys that do not exist among the original-input keys. -/
def gapInventedOf (gap : Obj (Option String)) (originalInput : Obj String) : List String :=
  (objKeys gap).filter (fun k => !((objKeys originalInput).contains k))

structure GenMetrics where
  totalScore : ℚ
  titleChanged : Bool
  addedAttributes : String
  newWordsAdded : String
deriving DecidableEq

/-- Model of `getGenerationMetrics`. The attribute arguments stand for the sets
the source builds at the call site, as deduplicated first-seen-order lists. -/
def getGenerationMetrics (origTitle : Option String) (genTitle : String)
    (origAttributes genAttributes : List String) (inputWords : List String)
    (gapAttributesAndValues : Obj (Option String)) (originalInput : Obj String) :
    GenMetrics :=
  let titleChanged : Bool := origTitle != some genTitle
  let addedAttributes := getSetDifference genAttributes origAttributes
  let newWordsAdded := newWordsOf genTitle inputWords
  let gapAttributesPresent := gapPresentOf gapAttributesAndValues originalInput
  let gapAttributesInvented := gapInventedOf gapAttributesAndValues originalInput
  let totalScore : ℚ :=
    ((if 0 < addedAttributes.length then (1 : ℚ) else 0) +
     (if titleChanged then (1 : ℚ) else 0) +
     (if newWordsAdded.length = 0 then (1 : ℚ) else 0) +
     (if 0 < gapAttributesPresent.length then (1 : ℚ) else 0) +
     (if 0 < gapAttributesInvented.length then (1 : ℚ) else 0)) / 5
  { totalScore := totalScore
    titleChanged := titleChanged
    addedAttributes := joinSep " " (addedAttributes.map (fun a => "<" ++ a ++ ">"))
    newWordsAdded := joinSep (" " ++ SEPARATOR ++ " ") newWordsAdded }

/-! ### optimizeRow -/

/-- The configured feed column names, read by the source from the config sheet. -/
structure FeedConfig where
  itemIdColumnName : String
  titleColumnName : String
  descriptionColumnName : String
deriving DecidableEq

/-- One generated record, the 17-entry row array returned by `optimizeRow`,
with each entry kept at its semantic type. The two JSON-blob cells are kept as
the objects they serialize (`JSON.stringify` is an injective recoding for
them). -/
structure OptRow where
  approval : Bool
  status : String
  itemId : Option String
  genTitle : String
  genDescription : String
  genCategory : String
  totalScore : ℚ
  titleChanged : Bool
  origTemplate : String
  genTemplate : String
  addedAttributes : String
  newWordsAdded : String
  gapAttributesAndValues : Obj (Option String)
  originalInput : Obj String
  origTitle : Option String
  origDescription : Option String
  apiResponse : String
deriving DecidableEq

/-- The successful body of `optimizeRow`, for a response with all four lines
present. `descRes` is the raw description-phase model response, which the
source uses verbatim as the generated description. Note the faithful modelling
of `Object.assign(data, ...)` in `fetchDescriptionGenerationData`: it mutates
the row context object itself, so the Generated Title key is part of the
object that is afterwards stored as the original-input blob and tokenized for
the input-word set. -/
def buildOptRow (cfg : FeedConfig) (headers data : List String)
    (titleRes descRes : String) : OptRow :=
  let dataObj := buildDataObj headers data
  let lines := responseLines titleRes
  let genCategory := jsTrim (replaceFirst ((lines.get? 1).getD "") CATEGORY_PROMPT_PART)
  let genAttributes := genKeysOf titleRes
  let origAttributes := origAttrsOf titleRes
  let recon := reconcileAux dataObj origAttributes (genValsOf titleRes) 0 genAttributes []
  let genTitle := jsJoin " " recon.2
  let mutated := objSet dataObj "Generated Title" genTitle
  let inputWords := collectInputWords mutated
  let m := getGenerationMetrics (objGet dataObj cfg.titleColumnName) genTitle
    (dedupFirst origAttributes) (dedupFirst genAttributes) inputWords recon.1 mutated
  { approval := false
    status := "Success"
    itemId := objGet dataObj cfg.itemIdColumnName
    genTitle := genTitle
    genDescription := descRes
    genCategory := genCategory
    totalScore := m.totalScore
    titleChanged := m.titleChanged
    origTemplate := templateString origAttributes
    genTemplate := templateString genAttributes
    addedAttributes := m.addedAttributes
    newWordsAdded := m.newWordsAdded
    gapAttributesAndValues := recon.1
    originalInput := mutated
    origTitle := objGet dataObj cfg.titleColumnName
    origDescription := objGet dataObj cfg.descriptionColumnName
    apiResponse := titleRes ++ "\nproduct description: " ++ descRes }

/-- Model of `optimizeRow`. The source destructures the response into four
lines and throws on the first property access of a missing line, which happens
exactly when the split has fewer than four lines; that is the error case here. -/
def optimizeRow (cfg : FeedConfig) (headers data : List String)
    (titleRes descRes : String) : Except String OptRow :=
  if 3 < (responseLines titleRes).length then
    Except.ok (buildOptRow cfg headers data titleRes descRes)
  else
    Except.error "TypeError: Cannot read properties of undefined"

/-- Accessor for the status of an optimization outcome. -/
def statusOf (e : Except String OptRow) : String :=
  match e with
  | Except.ok r => r.status
  | Except.error msg => msg

/-- Accessor for the gap map of a successful optimization outcome. -/
def gapOf (e : Except String OptRow) : Obj (Option String) :=
  match e with
  | Except.ok r => r.gapAttributesAndValues
  | Except.error _ => []

/-- Accessor for the generated title of a successful optimization outcome. -/
def genTitleOf (e : Except String OptRow) : String :=
  match e with
  | Except.ok r => r.genTitle
  | Except.error _ => ""

/-- Accessor for the generated template of a successful optimization outcome. -/
def genTemplateOf (e : Except String OptRow) : String :=
  match e with
  | Except.ok r => r.genTemplate
  | Except.error _ => ""

/-- Accessor for the stored original-input blob of a successful outcome. -/
def originalInputOf (e : Except String OptRow) : Obj String :=
  match e with
  | Except.ok r => r.originalInput
  | Except.error _ => []

/-! ### Trim lemmas -/

theorem dropWhile_idem {α : Type} (p : α → Bool) (l : List α) :
    (l.dropWhile p).dropWhile p = l.dropWhile p := by
  induction l with
  | nil => simp
  | cons a l ih =>
    by_cases h : p a
    · simp [List.dropWhile_cons, h, ih]
    · simp [List.dropWhile_cons, h]

theorem dropWhile_eq_self_of_isPrefix {α : Type} (p : α → Bool) {l₁ l₂ : List α}
    (hp : l₁ <+: l₂) (h : l₂.dropWhile p = l₂) : l₁.dropWhile p = l₁ := by
  cases l₁ with
  | nil => simp
  | cons a u =>
    obtain ⟨t, ht⟩ := hp
    by_cases hpa : p a
    · exfalso
      rw [← ht, List.cons_append, List.dropWhile_cons, if_pos hpa] at h
      have hle : ((u ++ t).dropWhile p).length ≤ (u ++ t).length :=
        (List.dropWhile_suffix p).length_le
      have hlen := congrArg List.length h
      rw [List.length_cons] at hlen
      omega
    · simp [List.dropWhile_cons, hpa]

theorem trimLeftChars_idem (l : List Char) : trimLeftChars (trimLeftChars l) = trimLeftChars l :=
  dropWhile_idem _ l

theorem trimRightChars_idem (l : List Char) :
    trimRightChars (trimRightChars l) = trimRightChars l := by
  simp only [trimRightChars, List.reverse_reverse]
  rw [dropWhile_idem]

theorem trimRightChars_isPrefix (l : List Char) : trimRightChars l <+: l := by
  have h := List.dropWhile_suffix (l := l.reverse) (fun c => c.isWhitespace)
  rw [← List.reverse_prefix] at *
  simpa [trimRightChars] using h

theorem trimLeftChars_trimRightChars (l : List Char) (h : trimLeftChars l = l) :
    trimLeftChars (trimRightChars l) = trimRightChars l :=
  dropWhile_eq_self_of_isPrefix _ (trimRightChars_isPrefix l) h

theorem jsTrim_idem (s : String) : jsTrim (jsTrim s) = jsTrim s := by
  have hdata : (jsTrim s).data = trimRightChars (trimLeftChars s.data) := rfl
  have h1 : trimLeftChars (jsTrim s).data = (jsTrim s).data := by
    rw [hdata]
    exact trimLeftChars_trimRightChars _ (trimLeftChars_idem s.data)
  show (⟨trimRightChars (trimLeftChars (jsTrim s).data)⟩ : String) = jsTrim s
  rw [h1, hdata, trimRightChars_idem]
  rfl

/-! ### Reconciliation lemmas -/

theorem reconcileAux_fst_mem (d : Obj String) (o vals : List String) :
    ∀ (keys : List String) (i : Nat) (gap : Obj (Option String)) (k : String),
    k ∈ objKeys (reconcileAux d o vals i keys gap).1 ↔
      k ∈ objKeys gap ∨ (k ∈ keys ∧ gapCond d o k = true) := by
  intro keys
  induction keys with
  | nil => simp [reconcileAux]
  | cons k0 rest ih =>
    intro i gap k
    show k ∈ objKeys (reconcileAux d o vals (i + 1) rest
      (if gapCond d o k0 then objSet gap k0 (vals.get? i) else gap)).1 ↔ _
    rw [ih]
    by_cases hc : gapCond d o k0 = true
    · rw [if_pos hc, mem_objKeys_objSet]
      constructor
      · rintro ((rfl | hg) | ⟨hr, hcond⟩)
        · exact Or.inr ⟨List.mem_cons_self _ _, hc⟩
        · exact Or.inl hg
        · exact Or.inr ⟨List.mem_cons_of_mem _ hr, hcond⟩
      · rintro (hg | ⟨hmem, hcond⟩)
        · exact Or.inl (Or.inr hg)
        · rcases List.mem_cons.mp hmem with rfl | hr
          · exact Or.inl (Or.inl rfl)
          · exact Or.inr ⟨hr, hcond⟩
    · rw [if_neg hc]
      constructor
      · rintro (hg | ⟨hr, hcond⟩)
        · exact Or.inl hg
        · exact Or.inr ⟨List.mem_cons_of_mem _ hr, hcond⟩
      · rintro (hg | ⟨hmem, hcond⟩)
        · exact Or.inl hg
        · rcases List.mem_cons.mp hmem with rfl | hr
          · exact absurd hcond hc
          · exact Or.inr ⟨hr, hcond⟩

theorem reconcileAux_fst_get_of_not_mem (d : Obj String) (o vals : List String) :
    ∀ (keys : List String) (i : Nat) (gap : Obj (Option String)) (k : String),
    k ∉ keys → objGet (reconcileAux d o vals i keys gap).1 k = objGet gap k := by
  intro keys
  induction keys with
  | nil => intro i gap k _; rfl
  | cons k0 rest ih =>
    intro i gap k hk
    have hk0 : k ≠ k0 := fun h => hk (h ▸ List.mem_cons_self _ _)
    have hkr : k ∉ rest := fun h => hk (List.mem_cons_of_mem _ h)
    show objGet (reconcileAux d o vals (i + 1) rest
      (if gapCond d o k0 then objSet gap k0 (vals.get? i) else gap)).1 k = _
    rw [ih _ _ _ hkr]
    by_cases hc : gapCond d o k0 = true
    · rw [if_pos hc, objGet_objSet_ne _ _ _ _ hk0]
    · rw [if_neg hc]

theorem reconcileAux_fst_get_last (d : Obj String) (o vals : List String) :
    ∀ (keys : List String) (i j : Nat) (gap : Obj (Option String)) (k : String),
    keys.get? j = some k → k ∉ keys.drop (j + 1) → gapCond d o k = true →
    objGet (reconcileAux d o vals i keys gap).1 k = some (vals.get? (i + j)) := by
  intro keys
  induction keys with
  | nil => intro i j gap k h; simp at h
  | cons k0 rest ih =>
    intro i j gap k hj hdrop hcond
    show objGet (reconcileAux d o vals (i + 1) rest
      (if gapCond d o k0 then objSet gap k0 (vals.get? i) else gap)).1 k = _
    cases j with
    | zero =>
      simp only [List.get?, Option.some.injEq] at hj
      subst hj
      simp only [List.drop_succ_cons, List.drop_zero] at hdrop
      rw [reconcileAux_fst_get_of_not_mem d o vals rest _ _ _ hdrop, if_pos hcond,
        objGet_objSet_self, Nat.add_zero]
    | succ j' =>
      simp only [List.get?] at hj
      simp only [List.drop_succ_cons] at hdrop
      rw [ih (i + 1) j' _ k hj hdrop hcond,
        show i + 1 + j' = i + (j' + 1) from by omega]

theorem reconcileAux_snd_get (d : Obj String) (o vals : List String) :
    ∀ (keys : List String) (i j : Nat) (gap : Obj (Option String)) (k : String),
    keys.get? j = some k →
    (reconcileAux d o vals i keys gap).2.get? j = some (jsOr (objGet d k) (vals.get? (i + j))) := by
  intro keys
  induction keys with
  | nil => intro i j gap k h; simp at h
  | cons k0 rest ih =>
    intro i j gap k hj
    show (jsOr (objGet d k0) (vals.get? i) :: (reconcileAux d o vals (i + 1) rest
      (if gapCond d o k0 then objSet gap k0 (vals.get? i) else gap)).2).get? j = _
    cases j with
    | zero =>
      simp only [List.get?, Option.some.injEq] at hj
      subst hj
      simp [Nat.add_zero]
    | succ j' =>
      simp only [List.get?] at hj
      show (reconcileAux d o vals (i + 1) rest _).2.get? j' = _
      rw [ih (i + 1) j' _ k hj, show i + 1 + j' = i + (j' + 1) from by omega]

/-! ### optimizeRow inversion and projections -/

theorem optimizeRow_eq_ok (cfg : FeedConfig) (headers data : List String)
    (titleRes descRes : String) (r : OptRow) :
    optimizeRow cfg headers data titleRes descRes = Except.ok r ↔
      3 < (responseLines titleRes).length ∧
        r = buildOptRow cfg headers data titleRes descRes := by
  unfold optimizeRow
  by_cases h : 3 < (responseLines titleRes).length
  · simp [h, eq_comm]
  · simp [h]

theorem buildOptRow_gap (cfg : FeedConfig) (headers data : List String)
    (titleRes descRes : String) :
    (buildOptRow cfg headers data titleRes descRes).gapAttributesAndValues =
      gapMapOf headers data titleRes := rfl

theorem buildOptRow_originalInput (cfg : FeedConfig) (headers data : List String)
    (titleRes descRes : String) :
    (buildOptRow cfg headers data titleRes descRes).originalInput =
      objSet (buildDataObj headers data) "Generated Title"
        (jsJoin " " (titleFeaturesOf headers data titleRes)) := rfl

theorem buildOptRow_status (cfg : FeedConfig) (headers data : List String)
    (titleRes descRes : String) :
    (buildOptRow cfg headers data titleRes descRes).status = "Success" := rfl

theorem buildOptRow_genTitle (cfg : FeedConfig) (headers data : List String)
    (titleRes descRes : String) :
    (buildOptRow cfg headers data titleRes descRes).genTitle =
      jsJoin " " (titleFeaturesOf headers data titleRes) := rfl

theorem contains_iff_mem (l : List String) (x : String) : l.contains x = true ↔ x ∈ l :=
  List.elem_iff

theorem gapCond_iff (d : Obj String) (o : List String) (k : String) :
    gapCond d o k = true ↔
      jsTruthy (objGet d k) = false ∧ (k ∉ o ∨ k ∈ objKeys d) := by
  unfold gapCond
  rw [Bool.and_eq_true, Bool.or_eq_true, Bool.not_eq_true', Bool.not_eq_true']
  constructor
  · rintro ⟨h1, h2 | h2⟩
    · refine ⟨h1, Or.inl fun hm => ?_⟩
      rw [(contains_iff_mem o k).mpr hm] at h2
      cases h2
    · exact ⟨h1, Or.inr ((contains_iff_mem _ k).mp h2)⟩
  · rintro ⟨h1, h2 | h2⟩
    · exact ⟨h1, Or.inl (Bool.eq_false_iff.mpr fun hc => h2 ((contains_iff_mem o k).mp hc))⟩
    · exact ⟨h1, Or.inr ((contains_iff_mem _ k).mpr h2)⟩

/-! ### Shared concrete inputs -/

/-- The configured feed column names used by the concrete examples. -/
def demoConfig : FeedConfig := ⟨"item_id", "title", "description"⟩

def c2Headers : List String := ["item_id", "title", "color"]
def c2Data : List String := ["1", "Red Shoe", ""]

/-- The four-line model response of the worked example in the spec. -/
def c2Response : String :=
  "product attribute keys in original title:color|\nproduct category:Footwear\nproduct attribute keys:color|size|\nproduct attribute values:Red|10|"

/-- A response whose generated-key sequence repeats a key with two distinct
values: the key size appears at indices 0 and 1 with values 10 and 11. -/
def dupKeyResponse : String :=
  "product attribute keys in original title:\nproduct category:C\nproduct attribute keys:size|size\nproduct attribute values:10|11"

/-! ### Claim C1 -/

/-- Claim C1, counterexample: for the duplicate-key response, the key size sits
at index 0 of the generated-key sequence and satisfies the gap test, yet the
gap map does not carry the generated value of index 0 (the later assignment at
index 1 overwrote it), refuting the claim that a key maps to the generated
value at the same index for every position at which it occurs. -/
theorem c1_same_index_counterexample :
    (genKeysOf dupKeyResponse).get? 0 = some "size" ∧
    gapCond (buildDataObj ["h"] ["x"]) (origAttrsOf dupKeyResponse) "size" = true ∧
    objGet (gapOf (optimizeRow demoConfig ["h"] ["x"] dupKeyResponse "d")) "size" ≠
      some ((genValsOf dupKeyResponse).get? 0) := by
  refine ⟨by decide, by decide, by decide⟩

/-- Claim C1 (amended): for every row and every position `i` of the
generated-attribute-key sequence holding key `k`, the key is in the gap map iff
the row context value for `k` is falsy and (`k` is not among the original-title
template keys or `k` is among the row context keys); and the gap map carries
the generated value of the index of the LAST occurrence of `k` in the key
sequence (so of index `i` whenever `k` does not occur again later). -/
theorem c1_gap_map_membership_and_value
    (cfg : FeedConfig) (headers data : List String) (titleRes descRes : String) (r : OptRow)
    (hok : optimizeRow cfg headers data titleRes descRes = Except.ok r)
    (i : Nat) (k : String)
    (hk : (genKeysOf titleRes).get? i = some k) :
    (k ∈ objKeys r.gapAttributesAndValues ↔
      (jsTruthy (objGet (buildDataObj headers data) k) = false ∧
        (k ∉ origAttrsOf titleRes ∨ k ∈ objKeys (buildDataObj headers data)))) ∧
    (k ∉ (genKeysOf titleRes).drop (i + 1) →
      objGet r.gapAttributesAndValues k =
        if gapCond (buildDataObj headers data) (origAttrsOf titleRes) k
        then some ((genValsOf titleRes).get? i) else none) := by
  obtain ⟨hlen, hr⟩ := (optimizeRow_eq_ok cfg headers data titleRes descRes r).mp hok
  subst hr
  rw [buildOptRow_gap]
  unfold gapMapOf
  have hkeys : k ∈ genKeysOf titleRes := List.get?_mem hk
  constructor
  · rw [reconcileAux_fst_mem]
    rw [show objKeys ([] : Obj (Option String)) = [] from rfl]
    simp only [List.not_mem_nil, false_or]
    rw [← gapCond_iff]
    exact and_iff_right hkeys
  · intro hlast
    by_cases hc : gapCond (buildDataObj headers data) (origAttrsOf titleRes) k = true
    · rw [if_pos hc]
      have h := reconcileAux_fst_get_last (buildDataObj headers data) (origAttrsOf titleRes)
        (genValsOf titleRes) (genKeysOf titleRes) 0 i [] k hk hlast hc
      rwa [Nat.zero_add] at h
    · rw [if_neg hc]
      apply objGet_eq_none_of_not_mem
      rw [reconcileAux_fst_mem]
      rw [show objKeys ([] : Obj (Option String)) = [] from rfl]
      simp only [List.not_mem_nil, false_or]
      rintro ⟨_, hcc⟩
      exact hc hcc

/-- Claim C1, witness: the amended theorem applied to the duplicate-key
response at index 1, the last occurrence of size, whose generated value is 11. -/
theorem c1_gap_map_membership_and_value_witness :
    "size" ∈ objKeys (gapOf (optimizeRow demoConfig ["h"] ["x"] dupKeyResponse "d")) ∧
    objGet (gapOf (optimizeRow demoConfig ["h"] ["x"] dupKeyResponse "d")) "size" =
      some (some "11") := by
  have hok : optimizeRow demoConfig ["h"] ["x"] dupKeyResponse "d" =
      Except.ok (buildOptRow demoConfig ["h"] ["x"] dupKeyResponse "d") :=
    (optimizeRow_eq_ok demoConfig ["h"] ["x"] dupKeyResponse "d" _).mpr ⟨by decide, rfl⟩
  have h := c1_gap_map_membership_and_value demoConfig ["h"] ["x"] dupKeyResponse "d" _
    hok 1 "size" (by decide)
  rw [show gapOf (optimizeRow demoConfig ["h"] ["x"] dupKeyResponse "d") =
    (buildOptRow demoConfig ["h"] ["x"] dupKeyResponse "d").gapAttributesAndValues
    from by rw [hok]; rfl]
  refine ⟨h.1.mpr (by decide), ?_⟩
  have h2 := h.2 (by decide)
  rw [if_pos (by decide)] at h2
  rw [h2]
  decide

/-! ### Claim C2 -/

/-- Claim C2, counterexample: on the worked example of the spec, the generated
template is as claimed, but the gap map is not exactly the singleton size map
and the generated title is not Red Shoe 10: the empty-but-declared color column
is itself recorded as a gap with the generated value Red, which also replaces
the falsy color cell in the title. -/
theorem c2_worked_example_counterexample :
    genTemplateOf (optimizeRow demoConfig c2Headers c2Data c2Response "d") = "<color> <size>" ∧
    gapOf (optimizeRow demoConfig c2Headers c2Data c2Response "d") ≠ [("size", some "10")] ∧
    genTitleOf (optimizeRow demoConfig c2Headers c2Data c2Response "d") ≠ "Red Shoe 10" := by
  refine ⟨by decide, by decide, by decide⟩

/-- Claim C2 (amended): on the worked example, the generated template is
`<color> <size>`, the gap map holds color mapped to Red and size mapped to 10,
and the generated title is Red 10. -/
theorem c2_worked_example :
    genTemplateOf (optimizeRow demoConfig c2Headers c2Data c2Response "d") = "<color> <size>" ∧
    gapOf (optimizeRow demoConfig c2Headers c2Data c2Response "d") =
      [("color", some "Red"), ("size", some "10")] ∧
    genTitleOf (optimizeRow demoConfig c2Headers c2Data c2Response "d") = "Red 10" := by
  refine ⟨by decide, by decide, by decide⟩

/-! ### Claim C3 -/

/-- Claim C3: the total score is the arithmetic mean of the five boolean
indicators (attributes added, title changed, no new words, some gap attribute
present among the original input, some gap attribute absent from it), and it
always lies in the set of fifths between 0 and 1. -/
theorem c3_total_score_mean_of_five
    (origTitle : Option String) (genTitle : String)
    (origAttributes genAttributes inputWords : List String)
    (gap : Obj (Option String)) (originalInput : Obj String) :
    (getGenerationMetrics origTitle genTitle origAttributes genAttributes inputWords gap
      originalInput).totalScore =
      ((if 0 < (getSetDifference genAttributes origAttributes).length then (1 : ℚ) else 0) +
       (if origTitle ≠ some genTitle then (1 : ℚ) else 0) +
       (if (newWordsOf genTitle inputWords).length = 0 then (1 : ℚ) else 0) +
       (if 0 < (gapPresentOf gap originalInput).length then (1 : ℚ) else 0) +
       (if 0 < (gapInventedOf gap originalInput).length then (1 : ℚ) else 0)) / 5 ∧
    (getGenerationMetrics origTitle genTitle origAttributes genAttributes inputWords gap
      originalInput).totalScore ∈
      ({0, 1/5, 2/5, 3/5, 4/5, 1} : Set ℚ) := by
  have h1 : (getGenerationMetrics origTitle genTitle origAttributes genAttributes inputWords gap
      originalInput).totalScore =
      ((if 0 < (getSetDifference genAttributes origAttributes).length then (1 : ℚ) else 0) +
       (if origTitle ≠ some genTitle then (1 : ℚ) else 0) +
       (if (newWordsOf genTitle inputWords).length = 0 then (1 : ℚ) else 0) +
       (if 0 < (gapPresentOf gap originalInput).length then (1 : ℚ) else 0) +
       (if 0 < (gapInventedOf gap originalInput).length then (1 : ℚ) else 0)) / 5 := by
    show ((if 0 < (getSetDifference genAttributes origAttributes).length then (1 : ℚ) else 0) +
       (if (origTitle != some genTitle) = true then (1 : ℚ) else 0) +
       (if (newWordsOf genTitle inputWords).length = 0 then (1 : ℚ) else 0) +
       (if 0 < (gapPresentOf gap originalInput).length then (1 : ℚ) else 0) +
       (if 0 < (gapInventedOf gap originalInput).length then (1 : ℚ) else 0)) / 5 = _
    by_cases h : origTitle = some genTitle
    · rw [h]
      simp
    · rw [bne_iff_ne.mpr h]
      simp [h]
  refine ⟨h1, ?_⟩
  rw [h1]
  split_ifs <;> norm_num [Set.mem_insert_iff, Set.mem_singleton_iff]

/-! ### Claim C4 -/

/-- Claim C4 is refuted by the code: on the worked example, the original-input
blob stored in the generated record is not the row context read at the start of
`optimizeRow`; the description phase mutates the context object in place, so
the stored blob additionally holds the Generated Title key, which was not among
the input keys. -/
theorem c4_snapshot_is_mutated :
    originalInputOf (optimizeRow demoConfig c2Headers c2Data c2Response "d") =
      [("item_id", "1"), ("title", "Red Shoe"), ("color", ""), ("Generated Title", "Red 10")] ∧
    "Generated Title" ∉ objKeys (buildDataObj c2Headers c2Data) := by
  refine ⟨by decide, by decide⟩

/-! ### Claim C5 -/

/-- Claim C5, counterexample: the source drops empty pieces BEFORE trimming, so
a whitespace-only piece survives the filter and is then trimmed to the empty
string: the parsed key sequence of this segment contains an empty element,
refuting the claim that the result never contains one. -/
theorem c5_empty_element_counterexample :
    "" ∈ parseSegment TEMPLATE_PROMPT_PART "product attribute keys:color| |size" := by
  decide

/-- Claim C5 (amended): each non-category segment is parsed by removing the
first occurrence of the known literal part, splitting on the separator,
dropping empty pieces and then trimming the survivors; hence no element of the
result is whitespace-padded (every element is trim-fixed), though an element
can be empty when a piece was whitespace-only. -/
theorem c5_elements_are_trimmed (promptPart line x : String)
    (hx : x ∈ parseSegment promptPart line) : jsTrim x = x := by
  obtain ⟨y, _, rfl⟩ := List.mem_map.mp hx
  exact jsTrim_idem y

/-- Claim C5, witness: the amended theorem applied to a concrete segment. -/
theorem c5_elements_are_trimmed_witness : jsTrim "color" = "color" :=
  c5_elements_are_trimmed TEMPLATE_PROMPT_PART "product attribute keys: color |size" "color"
    (by decide)

/-! ### Claim C10 -/

/-- A response whose generated-value sequence (one value) is shorter than its
generated-key sequence (two keys). -/
def shortValsResponse : String :=
  "product attribute keys in original title:\nproduct category:C\nproduct attribute keys:color|size\nproduct attribute values:Red"

/-- Claim C10: when the parsed value sequence is shorter than the key sequence,
`optimizeRow` still returns a Success record; for a key position beyond the
value sequence, the out-of-range value access is the absent value, so the title
feature at that position falls back to the row context value alone (absent when
that is falsy), and, when the gap test holds for the key, the gap map carries
the absent value for it. The key is assumed not to recur later in the sequence
(its last occurrence), since a later occurrence would overwrite the entry. -/
theorem c10_short_value_sequence
    (cfg : FeedConfig) (headers data : List String) (titleRes descRes : String) (r : OptRow)
    (hok : optimizeRow cfg headers data titleRes descRes = Except.ok r)
    (i : Nat) (k : String)
    (hk : (genKeysOf titleRes).get? i = some k)
    (hlen : (genValsOf titleRes).length ≤ i)
    (hlast : k ∉ (genKeysOf titleRes).drop (i + 1)) :
    r.status = "Success" ∧
    r.genTitle = jsJoin " " (titleFeaturesOf headers data titleRes) ∧
    (titleFeaturesOf headers data titleRes).get? i =
      some (jsOr (objGet (buildDataObj headers data) k) none) ∧
    (gapCond (buildDataObj headers data) (origAttrsOf titleRes) k = true →
      objGet r.gapAttributesAndValues k = some none) := by
  obtain ⟨hl4, hr⟩ := (optimizeRow_eq_ok cfg headers data titleRes descRes r).mp hok
  subst hr
  have hval : (genValsOf titleRes).get? i = none := List.get?_eq_none.mpr hlen
  refine ⟨buildOptRow_status cfg headers data titleRes descRes,
    buildOptRow_genTitle cfg headers data titleRes descRes, ?_, ?_⟩
  · unfold titleFeaturesOf
    rw [reconcileAux_snd_get (buildDataObj headers data) (origAttrsOf titleRes)
      (genValsOf titleRes) (genKeysOf titleRes) 0 i [] k hk, Nat.zero_add, hval]
  · intro hc
    rw [buildOptRow_gap]
    unfold gapMapOf
    have h := reconcileAux_fst_get_last (buildDataObj headers data) (origAttrsOf titleRes)
      (genValsOf titleRes) (genKeysOf titleRes) 0 i [] k hk hlast hc
    rw [Nat.zero_add, hval] at h
    exact h

/-- Claim C10, witness: on the short-value response, the index-1 key size has
no value; the row is a Success record and the gap map carries the absent value
for size. -/
theorem c10_short_value_sequence_witness :
    statusOf (optimizeRow demoConfig ["title"] ["T"] shortValsResponse "d") = "Success" ∧
    objGet (gapOf (optimizeRow demoConfig ["title"] ["T"] shortValsResponse "d")) "size" =
      some none := by
  have hok : optimizeRow demoConfig ["title"] ["T"] shortValsResponse "d" =
      Except.ok (buildOptRow demoConfig ["title"] ["T"] shortValsResponse "d") :=
    (optimizeRow_eq_ok demoConfig ["title"] ["T"] shortValsResponse "d" _).mpr ⟨by decide, rfl⟩
  have h := c10_short_value_sequence demoConfig ["title"] ["T"] shortValsResponse "d" _
    hok 1 "size" (by decide) (by decide) (by decide)
  constructor
  · rw [show statusOf (optimizeRow demoConfig ["title"] ["T"] shortValsResponse "d") =
      (buildOptRow demoConfig ["title"] ["T"] shortValsResponse "d").status
      from by rw [hok]; rfl]
    exact h.1
  · rw [show gapOf (optimizeRow demoConfig ["title"] ["T"] shortValsResponse "d") =
      (buildOptRow demoConfig ["title"] ["T"] shortValsResponse "d").gapAttributesAndValues
      from by rw [hok]; rfl]
    exact h.2.2.2 (by decide)

/-! ### Export reconciler (getGapAndInventedAttributes, exportApproved) -/

/-- One row of the generated sheet as the export step reads it, with the two
JSON cells already parsed to the objects they hold; an empty object stands for
the falsy empty cell (the truthiness filters of the source act on the cell
text, but a truthy cell holding an empty object contributes no keys either, so
the emptiness test is equivalent downstream). -/
structure GenRow where
  approval : Bool
  id : String
  titleGenerated : String
  descriptionGenerated : String
  gapAttributes : Obj String
  originalInput : Obj String
deriving DecidableEq

/-- The deduplicated keys of all non-empty gap-attribute cells. -/
def filledInGapAttributesOf (rows : List GenRow) : List String :=
  dedupFirst (((rows.filter (fun row => !row.gapAttributes.isEmpty)).map
    (fun row => objKeys row.gapAttributes)).flatten)

/-- The deduplicated keys of all non-empty original-input cells. -/
def allInputAttributesOf (rows : List GenRow) : List String :=
  dedupFirst (((rows.filter (fun row => !row.originalInput.isEmpty)).map
    (fun row => objKeys row.originalInput)).flatten)

/-- Model of `getGapAndInventedAttributes`: invented keys are the filled-in
keys absent from all input attributes, gap keys are the filled-in keys that are
not invented; the pair is returned in source order (invented first). -/
def getGapAndInventedAttributes (rows : List GenRow) : List String × List String :=
  let filledInGapAttributes := filledInGapAttributesOf rows
  let allInputAttributes := allInputAttributesOf rows
  let inventedAttributes :=
    filledInGapAttributes.filter (fun gapKey => !(allInputAttributes.contains gapKey))
  let gapAttributes :=
    filledInGapAttributes.filter (fun gapKey => !(inventedAttributes.contains gapKey))
  (inventedAttributes, gapAttributes)

/-- Modelled from the spec: the output sheet layout of config.ts (not under
src) — timestamp, id, title, description in the four leading columns, gap and
invented columns from index 4 on, and opaque sheet and header names. -/
def outputSheetName : String := "Supplemental Feed"

/-- Modelled from the spec: the first data row of the output sheet. -/
def outputStartRow : Nat := 1

/-- Modelled from the spec: the zero-based output column index of the id. -/
def outputIdIdx : Nat := 1

/-- Modelled from the spec: the zero-based index of the first gap column. -/
def outputGapColsStart : Nat := 4

/-- Modelled from the spec: the output header names for id, title, description. -/
def outputHeaderNames : List String := ["Item ID", "Title", "Description"]

/-- A sheet write, clear or log emitted by the export step, in order. -/
inductive SheetEffect where
  | logMsg (m : String)
  | clearRange (sheetName : String) (row col : Nat)
  | writeRange (sheetName : String) (row col : Nat) (rows : List (List (Option String)))
deriving DecidableEq

/-- The rows with the approval flag set, as filtered by `exportApproved`. -/
def approvedRowsOf (rows : List GenRow) : List GenRow :=
  rows.filter (fun row => row.approval)

/-- The gap-then-invented export column keys for the approved batch. -/
def exportColumnsOf (rows : List GenRow) : List String :=
  (getGapAndInventedAttributes (approvedRowsOf rows)).2 ++
    (getGapAndInventedAttributes (approvedRowsOf rows)).1

/-- The cells of one export row: the timestamp, id, title and description in
the four leading columns, then one cell per gap or invented column, holding the
row gap-map value when the key is among the row gap-map keys and otherwise the
row original-input value (absent when the key is missing there too). -/
def exportRowValues (now : String) (gapAndInventedAttributes : List String) (row : GenRow) :
    List (Option String) :=
  [some now, some row.id, some row.titleGenerated, some row.descriptionGenerated] ++
    gapAndInventedAttributes.map (fun attr =>
      if (objKeys row.gapAttributes).contains attr then objGet row.gapAttributes attr
      else objGet row.originalInput attr)

/-- Model of `exportApproved` as the ordered list of effects it performs: a log
only when no row is approved, otherwise the clear of the output sheet followed
by the header write and the data write. -/
def exportApproved (now : String) (rows : List GenRow) : List SheetEffect :=
  let feedGenRows := approvedRowsOf rows
  if feedGenRows.length = 0 then [SheetEffect.logMsg "Exporting approved rows..."]
  else
    let p := getGapAndInventedAttributes feedGenRows
    let outputHeader := outputHeaderNames ++ p.2 ++ p.1.map (fun key => "new_" ++ key)
    let rowsToWrite := feedGenRows.map (exportRowValues now (exportColumnsOf rows))
    [SheetEffect.logMsg "Exporting approved rows...",
     SheetEffect.logMsg "Clearing approved data...",
     SheetEffect.clearRange outputSheetName outputStartRow (outputIdIdx + 1),
     SheetEffect.clearRange outputSheetName (outputStartRow + 1) 1,
     SheetEffect.logMsg "Writing approved data...",
     SheetEffect.writeRange outputSheetName outputStartRow (outputIdIdx + 1)
       [outputHeader.map some],
     SheetEffect.writeRange outputSheetName (outputStartRow + 1) 1 rowsToWrite]

/-! ### Export lemmas -/

theorem not_contains_iff (l : List String) (x : String) : (!(l.contains x)) = true ↔ x ∉ l := by
  rw [Bool.not_eq_true']
  constructor
  · intro h hm
    rw [(contains_iff_mem l x).mpr hm] at h
    cases h
  · intro h
    exact Bool.eq_false_iff.mpr (fun hc => h ((contains_iff_mem l x).mp hc))

theorem mem_filledInGapAttributesOf (rows : List GenRow) (k : String) :
    k ∈ filledInGapAttributesOf rows ↔ ∃ r ∈ rows, k ∈ objKeys r.gapAttributes := by
  unfold filledInGapAttributesOf
  rw [mem_dedupFirst, List.mem_flatten]
  constructor
  · rintro ⟨l, hl, hkl⟩
    obtain ⟨r, hrf, rfl⟩ := List.mem_map.mp hl
    exact ⟨r, (List.mem_filter.mp hrf).1, hkl⟩
  · rintro ⟨r, hr, hkr⟩
    have hne : r.gapAttributes ≠ [] := by
      intro he
      rw [he] at hkr
      simp [objKeys] at hkr
    refine ⟨objKeys r.gapAttributes, List.mem_map.mpr ⟨r, List.mem_filter.mpr ⟨hr, ?_⟩, rfl⟩, hkr⟩
    rw [Bool.not_eq_true']
    exact Bool.eq_false_iff.mpr (fun hb => hne (List.isEmpty_iff.mp hb))

theorem mem_allInputAttributesOf (rows : List GenRow) (k : String) :
    k ∈ allInputAttributesOf rows ↔ ∃ r ∈ rows, k ∈ objKeys r.originalInput := by
  unfold allInputAttributesOf
  rw [mem_dedupFirst, List.mem_flatten]
  constructor
  · rintro ⟨l, hl, hkl⟩
    obtain ⟨r, hrf, rfl⟩ := List.mem_map.mp hl
    exact ⟨r, (List.mem_filter.mp hrf).1, hkl⟩
  · rintro ⟨r, hr, hkr⟩
    have hne : r.originalInput ≠ [] := by
      intro he
      rw [he] at hkr
      simp [objKeys] at hkr
    refine ⟨objKeys r.originalInput, List.mem_map.mpr ⟨r, List.mem_filter.mpr ⟨hr, ?_⟩, rfl⟩, hkr⟩
    rw [Bool.not_eq_true']
    exact Bool.eq_false_iff.mpr (fun hb => hne (List.isEmpty_iff.mp hb))

/-! ### Claim C6 -/

/-- Claim C6: for the approved batch, every key appearing in some row gap map
is placed in exactly one of the gap list and the invented list of
`getGapAndInventedAttributes` (result order: invented first, then gap), and it
is in the gap list precisely when it occurs in some row original-input
snapshot. -/
theorem c6_gap_invented_bipartition (rows : List GenRow) (k : String)
    (hk : ∃ r ∈ rows, k ∈ objKeys r.gapAttributes) :
    ((k ∈ (getGapAndInventedAttributes rows).2 ∧ k ∉ (getGapAndInventedAttributes rows).1) ∨
     (k ∈ (getGapAndInventedAttributes rows).1 ∧ k ∉ (getGapAndInventedAttributes rows).2)) ∧
    (k ∈ (getGapAndInventedAttributes rows).2 ↔
      ∃ r ∈ rows, k ∈ objKeys r.originalInput) := by
  have hfilled : k ∈ filledInGapAttributesOf rows := (mem_filledInGapAttributesOf rows k).mpr hk
  have hinv : ∀ k' : String, k' ∈ (getGapAndInventedAttributes rows).1 ↔
      k' ∈ filledInGapAttributesOf rows ∧ k' ∉ allInputAttributesOf rows := by
    intro k'
    show k' ∈ (filledInGapAttributesOf rows).filter
      (fun gapKey => !((allInputAttributesOf rows).contains gapKey)) ↔ _
    rw [List.mem_filter, not_contains_iff]
  have hgapm : ∀ k' : String, k' ∈ (getGapAndInventedAttributes rows).2 ↔
      k' ∈ filledInGapAttributesOf rows ∧ k' ∉ (getGapAndInventedAttributes rows).1 := by
    intro k'
    show k' ∈ (filledInGapAttributesOf rows).filter
      (fun gapKey => !(((getGapAndInventedAttributes rows).1).contains gapKey)) ↔ _
    rw [List.mem_filter, not_contains_iff]
  constructor
  · by_cases ha : k ∈ allInputAttributesOf rows
    · left
      have hni : k ∉ (getGapAndInventedAttributes rows).1 := fun hi => ((hinv k).mp hi).2 ha
      exact ⟨(hgapm k).mpr ⟨hfilled, hni⟩, hni⟩
    · right
      have hi : k ∈ (getGapAndInventedAttributes rows).1 := (hinv k).mpr ⟨hfilled, ha⟩
      exact ⟨hi, fun hg => ((hgapm k).mp hg).2 hi⟩
  · constructor
    · intro hg
      have hni := ((hgapm k).mp hg).2
      by_cases ha : k ∈ allInputAttributesOf rows
      · exact (mem_allInputAttributesOf rows k).mp ha
      · exact absurd ((hinv k).mpr ⟨hfilled, ha⟩) hni
    · intro hex
      have ha : k ∈ allInputAttributesOf rows := (mem_allInputAttributesOf rows k).mpr hex
      exact (hgapm k).mpr ⟨hfilled, fun hi => ((hinv k).mp hi).2 ha⟩

/-- Approved row of the two-row export example of the spec: a gap map holding
color filled as Red, with color declared but empty in the original input. -/
def demoRowA : GenRow := ⟨true, "1", "TA", "DA", [("color", "Red")], [("color", "")]⟩

/-- Approved row of the two-row export example of the spec: a gap map holding
material filled as Wood, with material absent from the original input. -/
def demoRowB : GenRow := ⟨true, "2", "TB", "DB", [("material", "Wood")], [("item_id", "2")]⟩

def demoExportRows : List GenRow := [demoRowA, demoRowB]

/-- Claim C6, witness: the bipartition theorem applied to the material key of
the two-row example, a key that only row B fills in. -/
theorem c6_gap_invented_bipartition_witness :
    (("material" ∈ (getGapAndInventedAttributes demoExportRows).2 ∧
      "material" ∉ (getGapAndInventedAttributes demoExportRows).1) ∨
     ("material" ∈ (getGapAndInventedAttributes demoExportRows).1 ∧
      "material" ∉ (getGapAndInventedAttributes demoExportRows).2)) ∧
    ("material" ∈ (getGapAndInventedAttributes demoExportRows).2 ↔
      ∃ r ∈ demoExportRows, "material" ∈ objKeys r.originalInput) :=
  c6_gap_invented_bipartition demoExportRows "material" ⟨demoRowB, by decide, by decide⟩

/-! ### Claim C7 -/

/-- Claim C7: for every approved row and every gap or invented export column,
`exportApproved` emits the data write whose row for that approved row carries,
in that column cell, the row own gap-map value when the column key is among the
row gap-map keys, and otherwise the row original-input value for that key
(absent when the key is missing there, leaving the cell empty). -/
theorem c7_export_cell_values (now : String) (rows : List GenRow)
    (i : Nat) (r : GenRow) (j : Nat) (a : String)
    (hr : (approvedRowsOf rows).get? i = some r)
    (ha : (exportColumnsOf rows).get? j = some a) :
    SheetEffect.writeRange outputSheetName (outputStartRow + 1) 1
      ((approvedRowsOf rows).map (exportRowValues now (exportColumnsOf rows))) ∈
      exportApproved now rows ∧
    ((approvedRowsOf rows).map (exportRowValues now (exportColumnsOf rows))).get? i =
      some (exportRowValues now (exportColumnsOf rows) r) ∧
    (exportRowValues now (exportColumnsOf rows) r).get? (outputGapColsStart + j) =
      some (if a ∈ objKeys r.gapAttributes then objGet r.gapAttributes a
        else objGet r.originalInput a) := by
  have hne : ¬((approvedRowsOf rows).length = 0) := by
    intro h0
    rw [List.length_eq_zero] at h0
    rw [h0] at hr
    simp at hr
  refine ⟨?_, ?_, ?_⟩
  · simp only [exportApproved]
    rw [if_neg hne]
    apply List.mem_cons_of_mem
    apply List.mem_cons_of_mem
    apply List.mem_cons_of_mem
    apply List.mem_cons_of_mem
    apply List.mem_cons_of_mem
    apply List.mem_cons_of_mem
    exact List.mem_cons_self _ _
  · rw [List.get?_map, hr]
    rfl
  · show ([some now, some r.id, some r.titleGenerated, some r.descriptionGenerated] ++
      (exportColumnsOf rows).map (fun attr =>
        if (objKeys r.gapAttributes).contains attr then objGet r.gapAttributes attr
        else objGet r.originalInput attr)).get? (outputGapColsStart + j) = _
    have h4 : ([some now, some r.id, some r.titleGenerated, some r.descriptionGenerated] :
        List (Option String)).length ≤ outputGapColsStart + j := by
      simp [outputGapColsStart]
    rw [List.get?_append_right h4]
    have hidx : outputGapColsStart + j - ([some now, some r.id, some r.titleGenerated,
        some r.descriptionGenerated] : List (Option String)).length = j := by
      simp [outputGapColsStart]
    rw [hidx, List.get?_map, ha]
    by_cases hmem : a ∈ objKeys r.gapAttributes
    · rw [if_pos hmem]
      show some (if (objKeys r.gapAttributes).contains a = true then objGet r.gapAttributes a
        else objGet r.originalInput a) = _
      rw [if_pos ((contains_iff_mem _ _).mpr hmem)]
    · rw [if_neg hmem]
      show some (if (objKeys r.gapAttributes).contains a = true then objGet r.gapAttributes a
        else objGet r.originalInput a) = _
      rw [if_neg (fun hc => hmem ((contains_iff_mem _ _).mp hc))]

/-- Claim C7, witness: in the two-row example, the new material column cell of
row A is the absent fallback, because material is not among row A gap keys and
is missing from row A original input. -/
theorem c7_export_cell_values_witness :
    (exportRowValues "t" (exportColumnsOf demoExportRows) demoRowA).get?
      (outputGapColsStart + 1) = some none := by
  have h := c7_export_cell_values "t" demoExportRows 0 demoRowA 1 "material"
    (by decide) (by decide)
  rw [h.2.2]
  decide

/-! ### Claim C8 -/

/-- Claim C8: when no generated row has the approval flag set, `exportApproved`
performs no sheet writes at all: its only effect is the initial log line, with
no clear and no write of the output sheet. -/
theorem c8_zero_approved_no_writes (now : String) (rows : List GenRow)
    (h : approvedRowsOf rows = []) :
    exportApproved now rows = [SheetEffect.logMsg "Exporting approved rows..."] := by
  simp only [exportApproved]
  rw [h]
  simp

/-- A generated row that was not approved. -/
def demoRowC : GenRow := ⟨false, "3", "TC", "DC", [("color", "Red")], [("color", "")]⟩

/-- Claim C8, witness: the no-write theorem applied to a batch holding one
unapproved row. -/
theorem c8_zero_approved_no_writes_witness :
    exportApproved "t" [demoRowC] = [SheetEffect.logMsg "Exporting approved rows..."] :=
  c8_zero_approved_no_writes "t" [demoRowC] (by decide)

/-! ### The row driver (generateNextRow) -/

/-- Modelled from the spec: the Success member of the Status enum of config.ts
(not under src); it must equal the Success literal stored by `optimizeRow` for
the next-row search to advance past generated rows. -/
def statusSuccess : String := "Success"

/-- Modelled from the spec: the Failed member of the Status enum of config.ts. -/
def statusFailed : String := "Failed"

/-- Modelled from the spec: the zero-based status column index of the generated
sheet in config.ts; it matches the position of the status entry in the 17-entry
row array returned by `optimizeRow`, which is second. -/
def generatedStatusCol : Nat := 1

/-- A spreadsheet cell value: a string, a boolean, a number, or a JSON-object
cell kept as the string-valued object it serializes (an injective recoding; the
numeric score cell likewise stands for the decimal string the source stores). -/
inductive CellV where
  | str (s : String)
  | boolv (b : Bool)
  | num (q : ℚ)
  | json (m : Obj String)
deriving DecidableEq

/-- The entries of a gap map whose values are defined: `JSON.stringify` drops
properties whose value is `undefined`. -/
def definedEntries (m : Obj (Option String)) : Obj String :=
  m.filterMap (fun p => p.2.map (fun v => (p.1, v)))

/-- The 17-entry generated-sheet row written for a successful record, in the
order of the array literal returned by `optimizeRow`; an undefined entry is an
empty cell. -/
def serializeRow (r : OptRow) : List (Option CellV) :=
  [some (CellV.boolv r.approval),
   some (CellV.str r.status),
   r.itemId.map CellV.str,
   some (CellV.str r.genTitle),
   some (CellV.str r.genDescription),
   some (CellV.str r.genCategory),
   some (CellV.num r.totalScore),
   some (CellV.str (if r.titleChanged then "true" else "false")),
   some (CellV.str r.origTemplate),
   some (CellV.str r.genTemplate),
   some (CellV.str r.addedAttributes),
   some (CellV.str r.newWordsAdded),
   some (if 0 < (objKeys r.gapAttributesAndValues).length then
      CellV.json (definedEntries r.gapAttributesAndValues) else CellV.str ""),
   some (CellV.json r.originalInput),
   r.origTitle.map CellV.str,
   r.origDescription.map CellV.str,
   some (CellV.str r.apiResponse)]

/-- The sparse row appended on a per-row failure: a hole at the approval column
and the Failed text at the status column. -/
def failedRowCells : List (Option CellV) :=
  [none, some (CellV.str (statusFailed ++ ". See log for more details."))]

/-- The value of a cell as the search reads it: an absent cell is the empty
string. -/
def cellAt (row : List (Option CellV)) (i : Nat) : CellV :=
  ((row.get? i).bind id).getD (CellV.str "")

/-- Model of `getNextRowIndexToBeGenerated`: the first data row of the
generated sheet whose status cell differs from Success, or the number of
generated rows when every row is a Success. -/
def getNextRowIndexToBeGenerated (genRows : List (List (Option CellV))) : Nat :=
  match genRows.findIdx?
      (fun row => decide (cellAt row generatedStatusCol ≠ CellV.str statusSuccess)) with
  | some idx => idx
  | none => genRows.length

/-- A write at a fixed data-row position of the generated sheet, extending the
sheet with empty rows if it is shorter. -/
def writeRowAt (genRows : List (List (Option CellV))) (i : Nat)
    (row : List (Option CellV)) : List (List (Option CellV)) :=
  (genRows ++ List.replicate (i + 1 - genRows.length) []).set i row

/-- The sheet-backed state the row driver reads and writes: the input sheet
headers and data rows, the generated sheet data rows, and the log sink. -/
structure GenState where
  inputHeaders : List String
  inputRows : List (List String)
  genRows : List (List (Option CellV))
  logs : List String
deriving DecidableEq

/-- Model of `generateNextRow`: pick the next row index; when past the input
rows return -1 unchanged; otherwise log, optimize the input row, and on
success write the serialized record at that row position, while on a caught
error log it and APPEND the sparse Failed row at the end of the generated
sheet (the appendRow call of the source), returning the row index either way. -/
def generateNextRow (cfg : FeedConfig) (titleRes descRes : String) (st : GenState) :
    GenState × Int :=
  let rowIndex := getNextRowIndexToBeGenerated st.genRows
  if st.inputRows.length ≤ rowIndex then (st, -1)
  else
    let row := (st.inputRows.get? rowIndex).getD []
    let logs1 := st.logs ++ ["Generating for row " ++ toString rowIndex]
    match optimizeRow cfg st.inputHeaders row titleRes descRes with
    | Except.ok r =>
      ({ st with genRows := writeRowAt st.genRows rowIndex (serializeRow r),
                 logs := logs1 ++ [statusSuccess] }, (rowIndex : Int))
    | Except.error e =>
      ({ st with genRows := st.genRows ++ [failedRowCells],
                 logs := logs1 ++ ["Error: " ++ e] }, (rowIndex : Int))

/-! ### Claim C9 -/

/-- A model response with a single line, missing the other expected segments. -/
def c9BadResponse : String := "no segments here"

/-- A driver state in which generated row 0 already carries a Failed status and
two input rows exist. -/
def c9State : GenState :=
  { inputHeaders := ["item_id", "title"]
    inputRows := [["1", "A"], ["2", "B"]]
    genRows := [failedRowCells]
    logs := [] }

/-- Claim C9 is refuted on re-failure: in a state whose generated row 0 already
holds a Failed status, the driver picks row 0 again (returned index 0), the
missing-segment error is caught and logged as the claim says, but the new
Failed status row is APPENDED at the end of the sheet: it lands in the slot of
row 1, which is no longer unchanged, instead of row 0 own position. -/
theorem c9_failed_status_appended_at_end :
    (generateNextRow demoConfig c9BadResponse "d" c9State).2 = 0 ∧
    (generateNextRow demoConfig c9BadResponse "d" c9State).1.genRows =
      [failedRowCells, failedRowCells] ∧
    (generateNextRow demoConfig c9BadResponse "d" c9State).1.logs =
      ["Generating for row 0",
       "Error: TypeError: Cannot read properties of undefined"] := by
  refine ⟨by decide, by decide, by decide⟩

end FeedGen
